import Mathlib

/-!  Verification development for the OHIF dental extension and its backend.

The definitions below are a shallow embedding of the source files:
  * `extensions/dental/src/dentalMeasurementsManager.ts` (measurement
    metadata enricher, preset registry, module-level state),
  * `extensions/dental/src/components/DentalMeasurementsPanel.tsx`
    (JSON export),
  * `backend/models/Annotation.js` and `backend/routes/annotations.js`
    (access control and viewer-state persistence routes).

JavaScript conventions are modelled explicitly:
  * `undefined` / `null` / absent fields are `Option.none`;
  * string truthiness (`if (s)`, `s ? a : b`, `a || b`) is modelled by
    `jsPresence`, which maps the empty string to `none`;
  * JS numbers are modelled as `ℚ`: the enricher and the export only copy
    and compare numeric fields, never performs arithmetic on them, and the
    IEEE doubles appearing in the claims embed exactly into `ℚ`.
-/

/-- JS truthiness for an optional string: `undefined`, `null` and `""` are
falsy.  `jsPresence o` is `some s` exactly when `o` holds a truthy string. -/
def jsPresence (o : Option String) : Option String :=
  match o with
  | some s => if s = "" then none else some s
  | none => none

/-- `DentalToothSelection` from dentalMeasurementsManager.ts: a numbering
system tag together with a tooth value, both strings. -/
structure DentalToothSelection where
  system : String
  value : String
deriving DecidableEq, Repr

/-- `DentalMeasurementPreset` from dentalMeasurementsManager.ts.  None of the
four registry entries defines the optional `valueAccessor` field, so it is
omitted from the embedding. -/
structure DentalMeasurementPreset where
  id : String
  label : String
  toolName : String
  unit : String
  description : String
deriving DecidableEq, Repr

/-- `DENTAL_MEASUREMENT_PRESETS`: the static registry of the four presets. -/
def DENTAL_MEASUREMENT_PRESETS : List DentalMeasurementPreset :=
  [ { id := "periapical-length", label := "PA length", toolName := "Length",
      unit := "mm", description := "Standard periapical length measurement." },
    { id := "canal-angle", label := "Canal angle", toolName := "Angle",
      unit := "°", description := "Measure the canal angulation in degrees." },
    { id := "crown-width", label := "Crown width", toolName := "Length",
      unit := "mm", description := "Buccolingual crown width measurement." },
    { id := "root-length", label := "Root length", toolName := "Length",
      unit := "mm", description := "Root apex to CEJ linear measurement." } ]

/-- The statistics object read by `computeMeasurementValue` (the
`cachedStats` fallback fields actually accessed by the code). -/
structure DentalStats where
  angle : Option ℚ
  mean : Option ℚ
  longestDiameter : Option ℚ
  length : Option ℚ
  maxDiameter : Option ℚ
deriving DecidableEq, Repr

/-- One entry of `measurement.data` (`Object.values(measurement.data)`),
with the fields the accessor reads. -/
structure DataEntry where
  angle : Option ℚ
  value : Option ℚ
  length : Option ℚ
deriving DecidableEq, Repr

/-- The measurement `metadata` map: the dental keys written by the enricher
plus the `cachedStats` and `length` keys that `computeMeasurementValue`
reads from the metadata. -/
structure DentalMetadata where
  dentalPresetId : Option String
  dentalPresetLabel : Option String
  dentalUnit : Option String
  dentalValue : Option ℚ
  dentalTooth : Option DentalToothSelection
  dentalCreatedAt : Option ℕ
  cachedStats : Option DentalStats
  length : Option ℚ
deriving DecidableEq, Repr

/-- A host measurement, restricted to the fields the dental code reads or
writes: `uid`, display `label`, the `metadata` map, `data` (as the ordered
list of `Object.values(measurement.data)`), top-level `cachedStats`,
`angle` and `length`. -/
structure DentalMeasurement where
  uid : String
  label : Option String
  metadata : DentalMetadata
  data : Option (List DataEntry)
  cachedStats : Option DentalStats
  angle : Option ℚ
  length : Option ℚ
deriving DecidableEq, Repr

/-- `measurementHasDentalMetadata`: `Boolean(metadata?.dentalPresetId ||
metadata?.dentalPresetLabel)` with JS string truthiness. -/
def measurementHasDentalMetadata (m : DentalMeasurement) : Bool :=
  (jsPresence m.metadata.dentalPresetId).isSome
    || (jsPresence m.metadata.dentalPresetLabel).isSome

/-- Whether a preset is treated as angle-like: `preset.toolName === 'Angle'
|| preset.unit === '°'`. -/
def presetIsAngle (p : DentalMeasurementPreset) : Bool :=
  p.toolName == "Angle" || p.unit == "°"

/-- `computeMeasurementValue` from dentalMeasurementsManager.ts.  If
`measurement.data` exists and has at least one entry, the value is read
from the first entry (and the function returns there even when the entry
lacks the field); otherwise the cached-stats fallback chain runs. -/
def computeMeasurementValue (p : DentalMeasurementPreset) (m : DentalMeasurement) :
    Option ℚ :=
  match m.data with
  | some (e :: _) =>
      if presetIsAngle p then e.angle.orElse (fun _ => e.value)
      else e.length.orElse (fun _ => e.value)
  | _ =>
      let stats := m.cachedStats.orElse (fun _ => m.metadata.cachedStats)
      if presetIsAngle p then
        (m.angle.orElse (fun _ => stats.bind DentalStats.angle)).orElse
          (fun _ => stats.bind DentalStats.mean)
      else
        ((((m.length.orElse
            (fun _ => stats.bind DentalStats.longestDiameter)).orElse
            (fun _ => stats.bind DentalStats.length)).orElse
            (fun _ => stats.bind DentalStats.maxDiameter)).orElse
            (fun _ => m.metadata.length))

/-- `metadataChanged`: compares the four scalar dental keys with `!==` and
then the tooth's `system`/`value` through optional chaining. -/
def metadataChanged (cur next : DentalMetadata) : Bool :=
  cur.dentalPresetId != next.dentalPresetId
    || cur.dentalPresetLabel != next.dentalPresetLabel
    || cur.dentalUnit != next.dentalUnit
    || cur.dentalValue != next.dentalValue
    || cur.dentalTooth.map DentalToothSelection.system
        != next.dentalTooth.map DentalToothSelection.system
    || cur.dentalTooth.map DentalToothSelection.value
        != next.dentalTooth.map DentalToothSelection.value

/-- The integration context stored by `initializeDentalMeasurements`.  The
context is only stored after the guard has checked that the services
manager's `measurementService` and the commands manager exist, so holding a
context models a reachable `getMeasurementService()`. -/
structure IntegrationCtx where
  toolGroupIds : List String
deriving DecidableEq, Repr

/-- Kinds of measurement-service events the manager subscribes to. -/
inductive DentalEventKind
  | added
  | updated
  | cleared
deriving DecidableEq, Repr

/-- The module-level mutable state of dentalMeasurementsManager.ts:
`integration`, `activePresetId`, `activeTooth`, `subscriptions` (tagged
with the initialization id that created them) and `lastInitializationId`. -/
structure DentalState where
  integration : Option IntegrationCtx
  activePresetId : Option String
  activeTooth : Option DentalToothSelection
  subscriptions : List (DentalEventKind × String)
  lastInitializationId : Option String
deriving DecidableEq, Repr

/-- Resolution of `presetToApply` in `applyDentalMetadata`: the explicit
argument if given, otherwise the registry lookup whose predicate reads
`measurement.metadata.dentalPresetId` when truthy and the module's
`activePresetId` otherwise. -/
def resolveDentalPreset (s : DentalState) (m : DentalMeasurement)
    (preset : Option DentalMeasurementPreset) : Option DentalMeasurementPreset :=
  match preset with
  | some p => some p
  | none =>
      DENTAL_MEASUREMENT_PRESETS.find? (fun p =>
        match jsPresence m.metadata.dentalPresetId with
        | some pid => p.id == pid
        | none =>
            match s.activePresetId with
            | some apid => p.id == apid
            | none => false)

/-- The `nextMetadata` object built by `applyDentalMetadata`: spread of the
old metadata with the dental keys restamped, then the active tooth attached
when the measurement has none. -/
def enrichedMetadata (s : DentalState) (m : DentalMeasurement)
    (p : DentalMeasurementPreset) (now : ℕ) : DentalMetadata :=
  let base : DentalMetadata :=
    { m.metadata with
      dentalPresetId := some p.id
      dentalPresetLabel := some p.label
      dentalUnit := some p.unit
      dentalValue := computeMeasurementValue p m
      dentalCreatedAt := some (m.metadata.dentalCreatedAt.getD now) }
  if base.dentalTooth.isNone then
    match s.activeTooth with
    | some t => { base with dentalTooth := some t }
    | none => base
  else base

/-- The `labelSuffix` string: `"<preset label> (<system> <value>)"` when a
tooth is attached, the bare preset label otherwise. -/
def dentalLabelFor (p : DentalMeasurementPreset)
    (tooth : Option DentalToothSelection) : String :=
  match tooth with
  | some t => p.label ++ " (" ++ t.system ++ " " ++ t.value ++ ")"
  | none => p.label

/-- The measurement payload `{...measurement, label, metadata}` passed to
`measurementService.update`. -/
def enrichMeasurement (s : DentalState) (m : DentalMeasurement)
    (p : DentalMeasurementPreset) (now : ℕ) : DentalMeasurement :=
  { m with
    label := some (dentalLabelFor p (enrichedMetadata s m p now).dentalTooth)
    metadata := enrichedMetadata s m p now }

/-- The tail of `applyDentalMetadata` once a preset is resolved: build
`nextMetadata` and `labelSuffix`, skip the update when nothing changed
(the idempotency guard), otherwise return the update payload. -/
def applyDentalMetadataCore (s : DentalState) (m : DentalMeasurement)
    (p : DentalMeasurementPreset) (now : ℕ) : Option DentalMeasurement :=
  let nextMetadata := enrichedMetadata s m p now
  let labelSuffix := dentalLabelFor p nextMetadata.dentalTooth
  if !metadataChanged m.metadata nextMetadata && m.label == some labelSuffix then
    none
  else
    some { m with label := some labelSuffix, metadata := nextMetadata }

/-- `applyDentalMetadata(measurement, preset?)`: returns the
`measurementService.update` payload issued, or `none` when no update call
is made (missing service, no resolvable preset, or the idempotency guard).
`now` stands for `Date.now()`. -/
def applyDentalMetadata (s : DentalState) (m : DentalMeasurement)
    (preset : Option DentalMeasurementPreset) (now : ℕ) :
    Option DentalMeasurement :=
  if s.integration.isNone then none
  else
    match resolveDentalPreset s m preset with
    | none => none
    | some p => applyDentalMetadataCore s m p now

/-- `handleMeasurementAdded({ measurement })`: with an active (truthy)
preset id, enrich using that preset's registry entry; otherwise enrich only
measurements that already carry dental metadata. -/
def handleMeasurementAdded (s : DentalState) (m : Option DentalMeasurement)
    (now : ℕ) : Option DentalMeasurement :=
  match m with
  | none => none
  | some m =>
      if (jsPresence s.activePresetId).isSome then
        applyDentalMetadata s m
          (DENTAL_MEASUREMENT_PRESETS.find? (fun p => some p.id == s.activePresetId))
          now
      else if measurementHasDentalMetadata m then
        applyDentalMetadata s m none now
      else none

/-- `handleMeasurementUpdated({ measurement })`: re-enrich measurements
that already carry dental metadata, looking the preset up by the recorded
`dentalPresetId`. -/
def handleMeasurementUpdated (s : DentalState) (m : Option DentalMeasurement)
    (now : ℕ) : Option DentalMeasurement :=
  match m with
  | none => none
  | some m =>
      if !measurementHasDentalMetadata m then none
      else
        applyDentalMetadata s m
          (DENTAL_MEASUREMENT_PRESETS.find?
            (fun p => some p.id == m.metadata.dentalPresetId))
          now

/-- `initializeDentalMeasurements`: guarded on the measurement service and
commands manager; stores the integration context, replaces the
subscriptions with three fresh ones tagged by the new unique listener id,
and records that id as `lastInitializationId`. -/
def initializeDentalMeasurements (s : DentalState)
    (hasMeasurementService hasCommandsManager : Bool)
    (toolGroupIds : List String) (newId : String) : DentalState :=
  if !hasMeasurementService || !hasCommandsManager then s
  else
    { integration := some { toolGroupIds := toolGroupIds }
      activePresetId := s.activePresetId
      activeTooth := s.activeTooth
      subscriptions :=
        [(DentalEventKind.added, newId), (DentalEventKind.updated, newId),
         (DentalEventKind.cleared, newId)]
      lastInitializationId := some newId }

/-- `teardownDentalMeasurements`: clears the subscriptions, the integration
context and the active preset id.  (The active tooth is not touched.) -/
def teardownDentalMeasurements (s : DentalState) : DentalState :=
  { s with
    subscriptions := []
    integration := none
    activePresetId := none }

/-- The `setToolActive` command payload issued by
`selectDentalMeasurementPreset` through the commands manager. -/
structure ToolActiveCommand where
  toolName : String
  toolGroupIds : List String
deriving DecidableEq, Repr

/-- `selectDentalMeasurementPreset(presetId)`: stores the id
unconditionally, and issues the `setToolActive` command only when the id
matches a registry preset and an integration context is stored. -/
def selectDentalMeasurementPreset (s : DentalState) (presetId : String) :
    DentalState × Option ToolActiveCommand :=
  let s' := { s with activePresetId := some presetId }
  match DENTAL_MEASUREMENT_PRESETS.find? (fun p => p.id == presetId),
      s.integration with
  | some p, some ctx => (s', some { toolName := p.toolName, toolGroupIds := ctx.toolGroupIds })
  | some _, none => (s', none)
  | none, _ => (s', none)

/-- `getActiveDentalPresetId`. -/
def getActiveDentalPresetId (s : DentalState) : Option String :=
  s.activePresetId

/-- `setActiveDentalTooth`. -/
def setActiveDentalTooth (s : DentalState)
    (sel : Option DentalToothSelection) : DentalState :=
  { s with activeTooth := sel }

/-- `getActiveDentalTooth`. -/
def getActiveDentalTooth (s : DentalState) : Option DentalToothSelection :=
  s.activeTooth

/-- The `MEASUREMENTS_CLEARED` handler captured by an initialization with
unique listener id `hid`: it does nothing unless the module's
`lastInitializationId` still equals the captured id, and then nulls the
active preset id only. -/
def handleMeasurementsCleared (s : DentalState) (hid : String) : DentalState :=
  if s.lastInitializationId == some hid then
    { s with activePresetId := none }
  else s

/-!  Re-scan (`enhanceExistingMeasurements`) and its label heuristics. -/

/-- Case-insensitive character comparison (`/.../i`). -/
def charCI (a b : Char) : Bool :=
  a.toLower == b.toLower

/-- Whether the pattern is a case-insensitive leading segment of the text. -/
def charsLeadWith : List Char → List Char → Bool
  | [], _ => true
  | _ :: _, [] => false
  | t :: ts, c :: cs => charCI t c && charsLeadWith ts cs

/-- Whether the pattern occurs case-insensitively anywhere in the text:
`/pat/i.test(text)` for a pattern of plain characters. -/
def charsContain (pat : List Char) : List Char → Bool
  | [] => charsLeadWith pat []
  | c :: cs => charsLeadWith pat (c :: cs) || charsContain pat cs

/-- `/pat/i.test(hay)` for a literal pattern. -/
def containsCI (hay pat : String) : Bool :=
  charsContain pat.toList hay.toList

/-- Case-insensitive literal match of `tag` at the head of the text,
returning the remaining characters. -/
def matchTagAt : List Char → List Char → Option (List Char)
  | [], rest => some rest
  | _ :: _, [] => none
  | t :: ts, c :: cs => if charCI t c then matchTagAt ts cs else none

/-- Split a maximal leading run of decimal digits (`\d+`, greedy). -/
def takeDigits : List Char → List Char × List Char
  | [] => ([], [])
  | c :: cs =>
      if c.isDigit then
        let p := takeDigits cs
        (c :: p.1, p.2)
      else ([], c :: cs)

/-- `label.match(/\(TAG (\d+)\)/i)`: scan for the leftmost `(`, the tag and
a space (case-insensitively), one or more digits and a closing `)`,
returning the captured digit group.  Greedy `\d+` followed by a literal
`)` needs no backtracking. -/
def matchToothRef (tag : List Char) : List Char → Option String
  | [] => none
  | c :: cs =>
      (if c == '(' then
        match matchTagAt tag cs with
        | some rest =>
            let p := takeDigits rest
            if p.1.isEmpty then none
            else
              match p.2 with
              | ')' :: _ => some (String.mk p.1)
              | _ => none
        | none => none
      else none).orElse (fun _ => matchToothRef tag cs)

/-- The tooth extraction in `enhanceExistingMeasurements`: the FDI pattern
is tried first, then Universal; the Palmer match is computed by the code
but never used, so it is omitted. -/
def parseToothFromLabel (label : String) : Option DentalToothSelection :=
  match matchToothRef "FDI ".toList label.toList with
  | some v => some { system := "FDI", value := v }
  | none =>
      match matchToothRef "Universal ".toList label.toList with
      | some v => some { system := "UNIVERSAL", value := v }
      | none => none

/-- The preset inference chain in `enhanceExistingMeasurements`: the four
case-insensitive label tests in source order, each resolving through the
registry. -/
def matchPresetForLabel (label : String) : Option DentalMeasurementPreset :=
  if containsCI label "PA length" then
    DENTAL_MEASUREMENT_PRESETS.find? (fun p => p.id == "periapical-length")
  else if containsCI label "Canal angle" then
    DENTAL_MEASUREMENT_PRESETS.find? (fun p => p.id == "canal-angle")
  else if containsCI label "Crown width" then
    DENTAL_MEASUREMENT_PRESETS.find? (fun p => p.id == "crown-width")
  else if containsCI label "Root length" then
    DENTAL_MEASUREMENT_PRESETS.find? (fun p => p.id == "root-length")
  else none

/-- The per-measurement body of `enhanceExistingMeasurements`: skip
measurements that already carry dental metadata, infer a preset from the
display label, stamp the metadata (label is not rewritten here) and return
the `measurementService.update` payload, if any. -/
def enhanceMeasurement (m : DentalMeasurement) (now : ℕ) :
    Option DentalMeasurement :=
  if measurementHasDentalMetadata m then none
  else
    let label := (jsPresence m.label).getD ""
    match matchPresetForLabel label with
    | none => none
    | some p =>
        let base : DentalMetadata :=
          { m.metadata with
            dentalPresetId := some p.id
            dentalPresetLabel := some p.label
            dentalUnit := some p.unit
            dentalValue := computeMeasurementValue p m
            dentalCreatedAt := some (m.metadata.dentalCreatedAt.getD now) }
        let nextMetadata :=
          match parseToothFromLabel label with
          | some t => { base with dentalTooth := some t }
          | none => base
        some { m with metadata := nextMetadata }

/-- `enhanceExistingMeasurements`: the list of `(uid, payload)` update
calls issued over all current measurements. -/
def enhanceExistingMeasurements (ms : List DentalMeasurement) (now : ℕ) :
    List (String × DentalMeasurement) :=
  ms.filterMap (fun m => (enhanceMeasurement m now).map (fun u => (m.uid, u)))

/-!  DentalMeasurementsPanel JSON export. -/

/-- One entry of the exported JSON array. -/
structure ExportEntry where
  uid : String
  label : Option String
  value : Option ℚ
  unit : Option String
  tooth : Option DentalToothSelection
  source : Option String
deriving DecidableEq, Repr

/-- One element of the `exportPayload` built by `handleExport`:
`label` uses `||` (string truthiness), the other fields use `?? null`. -/
def exportEntry (m : DentalMeasurement) : ExportEntry :=
  { uid := m.uid
    label :=
      match jsPresence m.metadata.dentalPresetLabel with
      | some s => some s
      | none => m.label
    value := m.metadata.dentalValue
    unit := m.metadata.dentalUnit
    tooth := m.metadata.dentalTooth
    source := m.metadata.dentalPresetId }

/-- `handleExport`: the full exported array, in panel order. -/
def handleExport (ms : List DentalMeasurement) : List ExportEntry :=
  ms.map exportEntry

/-!  Backend: Annotation.js access control and the GET/PUT routes. -/

/-- The per-user share permission enum. -/
inductive SharePermission
  | read
  | write
deriving DecidableEq, Repr

/-- One `sharedWith` entry of an annotation document (user ids modelled as
their `toString()` form). -/
structure ShareEntry where
  userId : String
  permission : SharePermission
deriving DecidableEq, Repr

/-- An annotation document, restricted to the fields the access-control
path reads: `_id`, owner `userId`, `isPrivate` and the `sharedWith` list. -/
structure Annot where
  id : String
  userId : String
  isPrivate : Bool
  sharedWith : List ShareEntry
deriving DecidableEq, Repr

/-- `annotationSchema.methods.canAccess(userId, permission)`: owner always;
private excludes all others; otherwise the first matching share entry
governs, with `write` requiring a `write` grant. -/
def canAccess (a : Annot) (userId : String) (permission : SharePermission) :
    Bool :=
  if a.userId == userId then true
  else if a.isPrivate then false
  else
    match a.sharedWith.find? (fun e => e.userId == userId) with
    | none => false
    | some e =>
        if permission == SharePermission.write then
          e.permission == SharePermission.write
        else true

/-- `GET /api/annotations/:id` for an authenticated user: 404 when the id
resolves to no document, 403 when `canAccess(user)` fails, 200 otherwise. -/
def getAnnotStatus (db : List Annot) (annotId : String) (user : String) : ℕ :=
  match db.find? (fun a => a.id == annotId) with
  | none => 404
  | some a => if canAccess a user SharePermission.read then 200 else 403

/-- `PUT /api/annotations/:id`: 400 on a validation failure, 404 on a
missing document, 403 when `canAccess(user, 'write')` fails, 200 on the
successful update. -/
def putAnnotStatus (validationOk : Bool) (db : List Annot) (annotId : String)
    (user : String) : ℕ :=
  if !validationOk then 400
  else
    match db.find? (fun a => a.id == annotId) with
    | none => 404
    | some a => if canAccess a user SharePermission.write then 200 else 403

/-!  Backend: ViewerState save / auto-save routes and cleanup. -/

/-- A `ViewerState` document, with `_id` modelled as a numeric handle, the
opaque `state` payload as a string, and `updatedAt`/`createdAt` as
timestamps. -/
structure VSDoc where
  id : ℕ
  userId : String
  studyInstanceUID : String
  sessionId : String
  state : String
  autoSaved : Bool
  version : ℕ
  createdAt : ℕ
  updatedAt : ℕ
deriving DecidableEq, Repr

/-- The unique (user, study, session) composite key. -/
def vsKeyMatches (u study session : String) (d : VSDoc) : Bool :=
  d.userId == u && d.studyInstanceUID == study && d.sessionId == session

/-- The upsert performed by `POST /api/viewer-state/save`: `findOne` on the
composite key, then either mutate the found document (the `pre('save')`
middleware increments `version` for a modified, non-new document and
`timestamps` refreshes `updatedAt`) or insert a fresh document with the
schema default `version = 1`.  Returns the new collection and the saved
document.  The route always assigns `state` and `autoSaved` before saving,
so an existing document is modelled as modified. -/
def upsertViewerState (db : List VSDoc) (u study session st : String)
    (autoSaved : Bool) (now freshId : ℕ) : List VSDoc × VSDoc :=
  match db.find? (vsKeyMatches u study session) with
  | some d =>
      let d' : VSDoc :=
        { d with
          state := st
          autoSaved := autoSaved
          version := d.version + 1
          updatedAt := now }
      (db.map (fun x => if x.id == d.id then d' else x), d')
  | none =>
      let d' : VSDoc :=
        { id := freshId, userId := u, studyInstanceUID := study,
          sessionId := session, state := st, autoSaved := autoSaved,
          version := 1, createdAt := now, updatedAt := now }
      (db ++ [d'], d')

/-- Insertion into a list kept sorted by `updatedAt` descending (ties keep
the later-inserted element after the earlier ones, matching a stable sort). -/
def insertDescByUpdatedAt (d : VSDoc) : List VSDoc → List VSDoc
  | [] => [d]
  | x :: xs =>
      if x.updatedAt ≥ d.updatedAt then x :: insertDescByUpdatedAt d xs
      else d :: x :: xs

/-- Sort by `updatedAt` descending (the `.sort({updatedAt: -1})` query). -/
def sortDescByUpdatedAt (l : List VSDoc) : List VSDoc :=
  l.foldr insertDescByUpdatedAt []

/-- `viewerStateSchema.statics.cleanupOldStates`: the documents of the
(user, study) group beyond the 10 most recently updated are deleted. -/
def cleanupOldStates (db : List VSDoc) (u study : String) : List VSDoc :=
  let group := db.filter (fun d => d.userId == u && d.studyInstanceUID == study)
  let toDelete := ((sortDescByUpdatedAt group).drop 10).map VSDoc.id
  db.filter (fun d => !toDelete.contains d.id)

/-- `POST /api/viewer-state/save` (validation assumed passed): the upsert
followed by `cleanupOldStates`; the response carries the saved document. -/
def saveViewerState (db : List VSDoc) (u study session st : String)
    (autoSaved : Bool) (now freshId : ℕ) : List VSDoc × VSDoc :=
  let r := upsertViewerState db u study session st autoSaved now freshId
  (cleanupOldStates r.1 u study, r.2)

/-- The three response shapes of `POST /api/viewer-state/auto-save`:
a 400 on missing required fields, a 200 `{success: true, ...}` on a
successful upsert, and a 200 `{success: false}` swallowing any failure. -/
inductive AutoSaveResp
  | missingFields
  | ok (stateId : ℕ) (version : ℕ)
  | softFail
deriving DecidableEq, Repr

/-- The HTTP status of each auto-save response shape (`res.json` defaults
to 200). -/
def autoSaveStatus : AutoSaveResp → ℕ
  | AutoSaveResp.missingFields => 400
  | AutoSaveResp.ok _ _ => 200
  | AutoSaveResp.softFail => 200

/-- `POST /api/viewer-state/auto-save`: requires the three body fields to
be truthy, then runs the same key-based upsert as the save route with
`autoSaved` forced `true` and `runValidators` off (`$inc` of `version` on
update, initial `version = 1` on upsert-insert — the same versioning as
`upsertViewerState`).  `dbFails` models any error thrown during the
database operation: the catch block answers `{success: false}` with the
default 200 status and the collection is left as it was. -/
def autoSaveViewerState (db : List VSDoc) (u : String)
    (study session st : Option String) (dbFails : Bool) (now freshId : ℕ) :
    List VSDoc × AutoSaveResp :=
  match jsPresence study, jsPresence session, jsPresence st with
  | some sd, some se, some s =>
      if dbFails then (db, AutoSaveResp.softFail)
      else
        let r := upsertViewerState db u sd se s true now freshId
        (r.1, AutoSaveResp.ok r.2.id r.2.version)
  | _, _, _ => (db, AutoSaveResp.missingFields)

/-!  Concrete scenarios used by the claims. -/

/-- Eleven distinct session ids, in save order. -/
def elevenSessions : List String :=
  ["a01", "a02", "a03", "a04", "a05", "a06", "a07", "a08", "a09", "a10", "a11"]

/-- Eleven consecutive saves for the same (user, study) pair, one per
session, at strictly increasing timestamps, through the full save route. -/
def elevenSaveResult : List VSDoc :=
  (elevenSessions.zip (List.range 11)).foldl
    (fun db p =>
      (saveViewerState db "user1" "study1" p.1 "payload" false
        (p.2 + 1) (p.2 + 100)).1)
    []

/-- Module state with an initialized integration, active preset
`periapical-length` and active tooth FDI 11. -/
def paLengthFdi11State : DentalState :=
  { integration := some { toolGroupIds := ["dental"] }
    activePresetId := some "periapical-length"
    activeTooth := some { system := "FDI", value := "11" }
    subscriptions :=
      [(DentalEventKind.added, "init1"), (DentalEventKind.updated, "init1"),
       (DentalEventKind.cleared, "init1")]
    lastInitializationId := some "init1" }

/-- Empty metadata map. -/
def emptyDentalMetadata : DentalMetadata :=
  { dentalPresetId := none, dentalPresetLabel := none, dentalUnit := none,
    dentalValue := none, dentalTooth := none, dentalCreatedAt := none,
    cachedStats := none, length := none }

/-- The rational number 15.5 (= 31/2), written as an explicit reduced
fraction so that kernel evaluation of equality tests never has to unfold
the (irreducible) rational field operations. -/
def fifteenPointFive : ℚ := ⟨31, 2, by decide, by decide⟩

/-- The measurement of the export claim: metadata
`{dentalPresetLabel: "PA length", dentalValue: 15.5, dentalUnit: "mm",
dentalTooth: {system: "FDI", value: "11"},
dentalPresetId: "periapical-length"}`. -/
def exportClaimMeasurement : DentalMeasurement :=
  { uid := "m-1"
    label := some "PA length (FDI 11)"
    metadata :=
      { emptyDentalMetadata with
        dentalPresetId := some "periapical-length"
        dentalPresetLabel := some "PA length"
        dentalUnit := some "mm"
        dentalValue := some fifteenPointFive
        dentalTooth := some { system := "FDI", value := "11" } }
    data := none
    cachedStats := none
    angle := none
    length := none }

/-- A fresh length measurement carrying a measured length of 15.5 mm and no
dental metadata. -/
def freshLengthMeasurement : DentalMeasurement :=
  { uid := "m-2"
    label := some "Length 1"
    metadata := emptyDentalMetadata
    data := some [{ angle := none, value := none, length := some fifteenPointFive }]
    cachedStats := none
    angle := none
    length := none }

/-- The `periapical-length` registry entry. -/
def paLengthPreset : DentalMeasurementPreset :=
  { id := "periapical-length", label := "PA length", toolName := "Length",
    unit := "mm", description := "Standard periapical length measurement." }

/-- The `canal-angle` registry entry. -/
def canalAnglePreset : DentalMeasurementPreset :=
  { id := "canal-angle", label := "Canal angle", toolName := "Angle",
    unit := "°", description := "Measure the canal angulation in degrees." }

/-- An angle measurement already tagged with the `canal-angle` preset id
but with stale label and metadata. -/
def staleCanalAngleMeasurement : DentalMeasurement :=
  { uid := "w-1"
    label := some "old label"
    metadata := { emptyDentalMetadata with dentalPresetId := some "canal-angle" }
    data := some [{ angle := some (42 : ℚ), value := none, length := none }]
    cachedStats := none
    angle := none
    length := none }

/-- The update payload the measurement-updated handler issues for
`staleCanalAngleMeasurement` under `paLengthFdi11State` at time 5. -/
def enrichedCanalAngleMeasurement : DentalMeasurement :=
  { uid := "w-1"
    label := some "Canal angle (FDI 11)"
    metadata :=
      { dentalPresetId := some "canal-angle"
        dentalPresetLabel := some "Canal angle"
        dentalUnit := some "°"
        dentalValue := some (42 : ℚ)
        dentalTooth := some { system := "FDI", value := "11" }
        dentalCreatedAt := some 5
        cachedStats := none
        length := none }
    data := some [{ angle := some (42 : ℚ), value := none, length := none }]
    cachedStats := none
    angle := none
    length := none }

/-- A stored viewer-state document used as a concrete save target. -/
def sampleVSDoc : VSDoc :=
  { id := 1, userId := "u", studyInstanceUID := "s", sessionId := "sess",
    state := "st", autoSaved := false, version := 1, createdAt := 1,
    updatedAt := 1 }

/-- A concrete annotation document: owned by "alice", not private, shared
read-only with "bob". -/
def sampleAnnot : Annot :=
  { id := "an-1", userId := "alice", isPrivate := false,
    sharedWith := [{ userId := "bob", permission := SharePermission.read }] }

/-!  Helper lemmas. -/

theorem DentalMetadata.ext' (a b : DentalMetadata)
    (h1 : a.dentalPresetId = b.dentalPresetId)
    (h2 : a.dentalPresetLabel = b.dentalPresetLabel)
    (h3 : a.dentalUnit = b.dentalUnit)
    (h4 : a.dentalValue = b.dentalValue)
    (h5 : a.dentalTooth = b.dentalTooth)
    (h6 : a.dentalCreatedAt = b.dentalCreatedAt)
    (h7 : a.cachedStats = b.cachedStats)
    (h8 : a.length = b.length) : a = b := by
  cases a
  cases b
  simp_all

theorem metadataChanged_self (md : DentalMetadata) :
    metadataChanged md md = false := by
  simp [metadataChanged]

theorem presets_id_ne_empty :
    ∀ p ∈ DENTAL_MEASUREMENT_PRESETS, p.id ≠ "" := by
  intro p hp
  simp only [DENTAL_MEASUREMENT_PRESETS, List.mem_cons,
    List.not_mem_nil, or_false] at hp
  rcases hp with rfl | rfl | rfl | rfl <;> decide

theorem presets_find_by_self_id :
    ∀ p ∈ DENTAL_MEASUREMENT_PRESETS,
      DENTAL_MEASUREMENT_PRESETS.find? (fun q => some q.id == some p.id) =
        some p := by
  intro p hp
  simp only [DENTAL_MEASUREMENT_PRESETS, List.mem_cons,
    List.not_mem_nil, or_false] at hp
  rcases hp with rfl | rfl | rfl | rfl <;> decide

theorem enrichedMetadata_dentalPresetId (s : DentalState)
    (m : DentalMeasurement) (p : DentalMeasurementPreset) (now : ℕ) :
    (enrichedMetadata s m p now).dentalPresetId = some p.id := by
  unfold enrichedMetadata
  cases s.activeTooth <;> dsimp only <;> split <;> rfl

theorem enrichedMetadata_dentalPresetLabel (s : DentalState)
    (m : DentalMeasurement) (p : DentalMeasurementPreset) (now : ℕ) :
    (enrichedMetadata s m p now).dentalPresetLabel = some p.label := by
  unfold enrichedMetadata
  cases s.activeTooth <;> dsimp only <;> split <;> rfl

theorem enrichedMetadata_dentalUnit (s : DentalState)
    (m : DentalMeasurement) (p : DentalMeasurementPreset) (now : ℕ) :
    (enrichedMetadata s m p now).dentalUnit = some p.unit := by
  unfold enrichedMetadata
  cases s.activeTooth <;> dsimp only <;> split <;> rfl

theorem enrichedMetadata_dentalValue (s : DentalState)
    (m : DentalMeasurement) (p : DentalMeasurementPreset) (now : ℕ) :
    (enrichedMetadata s m p now).dentalValue = computeMeasurementValue p m := by
  unfold enrichedMetadata
  cases s.activeTooth <;> dsimp only <;> split <;> rfl

theorem enrichedMetadata_dentalCreatedAt (s : DentalState)
    (m : DentalMeasurement) (p : DentalMeasurementPreset) (now : ℕ) :
    (enrichedMetadata s m p now).dentalCreatedAt =
      some (m.metadata.dentalCreatedAt.getD now) := by
  unfold enrichedMetadata
  cases s.activeTooth <;> dsimp only <;> split <;> rfl

theorem enrichedMetadata_cachedStats (s : DentalState)
    (m : DentalMeasurement) (p : DentalMeasurementPreset) (now : ℕ) :
    (enrichedMetadata s m p now).cachedStats = m.metadata.cachedStats := by
  unfold enrichedMetadata
  cases s.activeTooth <;> dsimp only <;> split <;> rfl

theorem enrichedMetadata_length (s : DentalState)
    (m : DentalMeasurement) (p : DentalMeasurementPreset) (now : ℕ) :
    (enrichedMetadata s m p now).length = m.metadata.length := by
  unfold enrichedMetadata
  cases s.activeTooth <;> dsimp only <;> split <;> rfl

theorem enrichedMetadata_dentalTooth (s : DentalState)
    (m : DentalMeasurement) (p : DentalMeasurementPreset) (now : ℕ) :
    (enrichedMetadata s m p now).dentalTooth =
      if m.metadata.dentalTooth.isNone then s.activeTooth
      else m.metadata.dentalTooth := by
  unfold enrichedMetadata
  cases hmt : m.metadata.dentalTooth with
  | none =>
      simp only [hmt, Option.isNone_none, if_true]
      cases s.activeTooth <;> rfl
  | some t => simp only [hmt, Option.isNone_some, Bool.false_eq_true, if_false]

theorem computeMeasurementValue_congr (p : DentalMeasurementPreset)
    (m : DentalMeasurement) (lb : Option String) (md : DentalMetadata)
    (hcs : md.cachedStats = m.metadata.cachedStats)
    (hlen : md.length = m.metadata.length) :
    computeMeasurementValue p { m with label := lb, metadata := md } =
      computeMeasurementValue p m := by
  unfold computeMeasurementValue
  dsimp only
  rw [hcs, hlen]

theorem enrichMeasurement_metadata (s : DentalState) (m : DentalMeasurement)
    (p : DentalMeasurementPreset) (now : ℕ) :
    (enrichMeasurement s m p now).metadata = enrichedMetadata s m p now := rfl

theorem enrichMeasurement_label (s : DentalState) (m : DentalMeasurement)
    (p : DentalMeasurementPreset) (now : ℕ) :
    (enrichMeasurement s m p now).label =
      some (dentalLabelFor p (enrichedMetadata s m p now).dentalTooth) := rfl

theorem enrichedMetadata_tooth_none_activeTooth (s : DentalState)
    (m : DentalMeasurement) (p : DentalMeasurementPreset) (now : ℕ)
    (h : (enrichedMetadata s m p now).dentalTooth = none) :
    s.activeTooth = none := by
  rw [enrichedMetadata_dentalTooth] at h
  by_cases hmt : m.metadata.dentalTooth.isNone
  · rwa [if_pos hmt] at h
  · rw [if_neg hmt] at h
    exact absurd (Option.isNone_iff_eq_none.mpr h) hmt

theorem enrichedMetadata_stable (s : DentalState) (m : DentalMeasurement)
    (p : DentalMeasurementPreset) (now now' : ℕ) :
    enrichedMetadata s (enrichMeasurement s m p now) p now' =
      enrichedMetadata s m p now := by
  set N := enrichedMetadata s m p now with hN
  have hval : computeMeasurementValue p (enrichMeasurement s m p now) =
      computeMeasurementValue p m := by
    have := computeMeasurementValue_congr p m
      (some (dentalLabelFor p N.dentalTooth)) N
      (by rw [hN, enrichedMetadata_cachedStats])
      (by rw [hN, enrichedMetadata_length])
    exact this
  apply DentalMetadata.ext'
  · rw [enrichedMetadata_dentalPresetId, hN, enrichedMetadata_dentalPresetId]
  · rw [enrichedMetadata_dentalPresetLabel, hN, enrichedMetadata_dentalPresetLabel]
  · rw [enrichedMetadata_dentalUnit, hN, enrichedMetadata_dentalUnit]
  · rw [enrichedMetadata_dentalValue, hN, enrichedMetadata_dentalValue, hval]
  · rw [enrichedMetadata_dentalTooth]
    rw [enrichMeasurement_metadata, ← hN]
    by_cases ht : N.dentalTooth.isNone
    · rw [if_pos ht]
      have hact := enrichedMetadata_tooth_none_activeTooth s m p now
        (by rw [← hN] at *; exact Option.isNone_iff_eq_none.mp ht)
      rw [hact, Option.isNone_iff_eq_none.mp ht]
    · rw [if_neg ht]
  · rw [enrichedMetadata_dentalCreatedAt, hN, enrichedMetadata_dentalCreatedAt]
    rw [enrichMeasurement_metadata, ← hN, enrichedMetadata_dentalCreatedAt]
    rfl
  · rw [enrichedMetadata_cachedStats, hN, enrichedMetadata_cachedStats]
    rw [enrichMeasurement_metadata, ← hN, enrichedMetadata_cachedStats]
  · rw [enrichedMetadata_length, hN, enrichedMetadata_length]
    rw [enrichMeasurement_metadata, ← hN, enrichedMetadata_length]

theorem applyDentalMetadataCore_stable (s : DentalState)
    (m : DentalMeasurement) (p : DentalMeasurementPreset) (now now' : ℕ) :
    applyDentalMetadataCore s (enrichMeasurement s m p now) p now' = none := by
  unfold applyDentalMetadataCore
  rw [enrichedMetadata_stable]
  rw [enrichMeasurement_metadata, enrichMeasurement_label]
  simp [metadataChanged_self]

theorem applyDentalMetadataCore_some_eq (s : DentalState)
    (m m' : DentalMeasurement) (p : DentalMeasurementPreset) (now : ℕ)
    (h : applyDentalMetadataCore s m p now = some m') :
    m' = enrichMeasurement s m p now := by
  unfold applyDentalMetadataCore at h
  dsimp only at h
  split at h
  · exact absurd h (by simp)
  · exact (Option.some.inj h).symm

theorem resolveDentalPreset_mem (s : DentalState) (m : DentalMeasurement)
    (pre : Option DentalMeasurementPreset) (p : DentalMeasurementPreset)
    (hpre : ∀ q, pre = some q → q ∈ DENTAL_MEASUREMENT_PRESETS)
    (h : resolveDentalPreset s m pre = some p) :
    p ∈ DENTAL_MEASUREMENT_PRESETS := by
  unfold resolveDentalPreset at h
  cases pre with
  | some q => exact Option.some.inj h ▸ hpre q rfl
  | none => exact List.mem_of_find?_eq_some h

/-- C1: re-running the enrichment through the measurement-updated handler
on the very measurement payload a previous run just wrote (with the module
state unchanged) issues no further `measurementService.update` call: the
idempotency guard makes the enrichment stable under the service's
re-emitted update notifications, so no update loop can arise. -/
theorem dental_enrichment_idempotent (s : DentalState)
    (m m' : DentalMeasurement) (n n' : ℕ)
    (h : handleMeasurementUpdated s (some m) n = some m') :
    handleMeasurementUpdated s (some m') n' = none := by
  unfold handleMeasurementUpdated at h
  dsimp only at h
  by_cases hmd : measurementHasDentalMetadata m
  · rw [if_neg (by simp [hmd])] at h
    unfold applyDentalMetadata at h
    by_cases hInt : s.integration.isNone
    · rw [if_pos hInt] at h
      exact absurd h (by simp)
    · rw [if_neg hInt] at h
      cases hres : resolveDentalPreset s m
          (DENTAL_MEASUREMENT_PRESETS.find?
            (fun p => some p.id == m.metadata.dentalPresetId)) with
      | none =>
          rw [hres] at h
          exact absurd h (by simp)
      | some p =>
          rw [hres] at h
          have hp : p ∈ DENTAL_MEASUREMENT_PRESETS :=
            resolveDentalPreset_mem s m _ p
              (fun q hq => List.mem_of_find?_eq_some hq) hres
          have hm2 := applyDentalMetadataCore_some_eq s m m' p n h
          subst hm2
          have hpid : (enrichMeasurement s m p n).metadata.dentalPresetId =
              some p.id := by
            rw [enrichMeasurement_metadata, enrichedMetadata_dentalPresetId]
          have hidne : p.id ≠ "" := presets_id_ne_empty p hp
          have hhas :
              measurementHasDentalMetadata (enrichMeasurement s m p n) = true := by
            unfold measurementHasDentalMetadata
            rw [hpid]
            simp [jsPresence, hidne]
          unfold handleMeasurementUpdated
          dsimp only
          rw [if_neg (by simp [hhas])]
          have hfind : DENTAL_MEASUREMENT_PRESETS.find?
              (fun q => some q.id ==
                (enrichMeasurement s m p n).metadata.dentalPresetId) = some p := by
            simp only [hpid]
            exact presets_find_by_self_id p hp
          rw [hfind]
          unfold applyDentalMetadata
          rw [if_neg hInt]
          show applyDentalMetadataCore s (enrichMeasurement s m p n) p n' = none
          exact applyDentalMetadataCore_stable s m p n n'
  · rw [if_pos (by simp_all)] at h
    exact absurd h (by simp)

/-- Witness for C1: the enrichment of a concrete stale canal-angle
measurement is issued once and the handler is silent on its result. -/
theorem dental_enrichment_idempotent_witness :
    handleMeasurementUpdated paLengthFdi11State
      (some enrichedCanalAngleMeasurement) 9 = none :=
  dental_enrichment_idempotent paLengthFdi11State staleCanalAngleMeasurement
    enrichedCanalAngleMeasurement 5 9 (by decide)

/-- C2: with active preset `periapical-length` and active tooth FDI 11, a
freshly added measurement without a `dentalTooth` is updated to label
`"PA length (FDI 11)"` with the preset id, label, unit and computed value
stamped and the active tooth attached. -/
theorem measurement_added_pa_length_fdi11 (m : DentalMeasurement) (now : ℕ)
    (h : m.metadata.dentalTooth = none) :
    ∃ m', handleMeasurementAdded paLengthFdi11State (some m) now = some m' ∧
      m'.label = some "PA length (FDI 11)" ∧
      m'.metadata.dentalPresetId = some "periapical-length" ∧
      m'.metadata.dentalPresetLabel = some "PA length" ∧
      m'.metadata.dentalUnit = some "mm" ∧
      m'.metadata.dentalTooth = some { system := "FDI", value := "11" } ∧
      m'.metadata.dentalValue = computeMeasurementValue paLengthPreset m := by
  have htooth :
      (enrichedMetadata paLengthFdi11State m paLengthPreset now).dentalTooth =
        some { system := "FDI", value := "11" } := by
    rw [enrichedMetadata_dentalTooth, h]
    rfl
  refine ⟨enrichMeasurement paLengthFdi11State m paLengthPreset now,
    ?_, ?_, ?_, ?_, ?_, ?_, ?_⟩
  · unfold handleMeasurementAdded
    dsimp only
    rw [if_pos (by decide)]
    have hfind : DENTAL_MEASUREMENT_PRESETS.find?
        (fun p => some p.id == paLengthFdi11State.activePresetId) =
          some paLengthPreset := by decide
    rw [hfind]
    unfold applyDentalMetadata
    rw [if_neg (by decide)]
    show applyDentalMetadataCore paLengthFdi11State m paLengthPreset now = _
    unfold applyDentalMetadataCore
    dsimp only
    have hchanged : metadataChanged m.metadata
        (enrichedMetadata paLengthFdi11State m paLengthPreset now) = true := by
      unfold metadataChanged
      rw [htooth, h]
      simp
    rw [hchanged]
    simp [enrichMeasurement]
  · rw [enrichMeasurement_label, htooth]
    rfl
  · rw [enrichMeasurement_metadata, enrichedMetadata_dentalPresetId]
    rfl
  · rw [enrichMeasurement_metadata, enrichedMetadata_dentalPresetLabel]
    rfl
  · rw [enrichMeasurement_metadata, enrichedMetadata_dentalUnit]
    rfl
  · rw [enrichMeasurement_metadata]
    exact htooth
  · rw [enrichMeasurement_metadata, enrichedMetadata_dentalValue]

/-- Witness for C2 at a concrete fresh length measurement. -/
theorem measurement_added_pa_length_fdi11_witness :
    ∃ m', handleMeasurementAdded paLengthFdi11State
        (some freshLengthMeasurement) 5 = some m' ∧
      m'.label = some "PA length (FDI 11)" ∧
      m'.metadata.dentalPresetId = some "periapical-length" ∧
      m'.metadata.dentalPresetLabel = some "PA length" ∧
      m'.metadata.dentalUnit = some "mm" ∧
      m'.metadata.dentalTooth = some { system := "FDI", value := "11" } ∧
      m'.metadata.dentalValue =
        computeMeasurementValue paLengthPreset freshLengthMeasurement :=
  measurement_added_pa_length_fdi11 freshLengthMeasurement 5 (by decide)

/-- C5 counterexample: after tearing down a state whose active tooth is
FDI 11, `getActiveDentalTooth` still returns that selection, not `null`:
teardown does not clear the tooth selection. -/
theorem teardown_leaves_tooth_counterexample :
    getActiveDentalTooth (teardownDentalMeasurements paLengthFdi11State) ≠
      none := by
  decide

/-- C5 amended: `teardownDentalMeasurements` releases all event
subscriptions and clears the integration context and the active preset id
(`getActiveDentalPresetId` returns `null` afterwards), but it leaves the
active tooth selection unchanged. -/
theorem teardown_clears_preset_and_subscriptions (s : DentalState) :
    (teardownDentalMeasurements s).subscriptions = [] ∧
    (teardownDentalMeasurements s).integration = none ∧
    getActiveDentalPresetId (teardownDentalMeasurements s) = none ∧
    getActiveDentalTooth (teardownDentalMeasurements s) =
      getActiveDentalTooth s :=
  ⟨rfl, rfl, rfl, rfl⟩

/-- C6: `selectDentalMeasurementPreset` always stores the id (so
`getActiveDentalPresetId` returns it, known or not), and the
`setToolActive` command is issued exactly when the id resolves in the
registry and an integration context is stored; when both hold it carries
the preset's tool name and the stored tool group ids. -/
theorem select_preset_stores_and_activates (s : DentalState)
    (presetId : String) :
    getActiveDentalPresetId (selectDentalMeasurementPreset s presetId).1 =
      some presetId ∧
    ((selectDentalMeasurementPreset s presetId).2).isSome =
      ((DENTAL_MEASUREMENT_PRESETS.find? (fun p => p.id == presetId)).isSome
        && s.integration.isSome) ∧
    (∀ p ctx,
      DENTAL_MEASUREMENT_PRESETS.find? (fun p => p.id == presetId) = some p →
      s.integration = some ctx →
      (selectDentalMeasurementPreset s presetId).2 =
        some { toolName := p.toolName, toolGroupIds := ctx.toolGroupIds }) := by
  unfold selectDentalMeasurementPreset getActiveDentalPresetId
  cases hf : DENTAL_MEASUREMENT_PRESETS.find? (fun p => p.id == presetId) with
  | none =>
      cases hi : s.integration with
      | none => exact ⟨rfl, rfl, fun p ctx hp _ => absurd hp (by simp)⟩
      | some ctx => exact ⟨rfl, rfl, fun p ctx hp _ => absurd hp (by simp)⟩
  | some p =>
      cases hi : s.integration with
      | none =>
          refine ⟨rfl, rfl, fun q ctx hq hctx => absurd hctx (by simp)⟩
      | some ctx =>
          refine ⟨rfl, rfl, fun q ctx' hq hctx => ?_⟩
          cases Option.some.inj hq
          cases Option.some.inj hctx
          rfl

/-- Witness for C6: selecting `canal-angle` on an initialized state issues
the Angle tool activation for the stored tool groups. -/
theorem select_preset_stores_and_activates_witness :
    (selectDentalMeasurementPreset paLengthFdi11State "canal-angle").2 =
      some { toolName := "Angle", toolGroupIds := ["dental"] } :=
  (select_preset_stores_and_activates paLengthFdi11State "canal-angle").2.2
    canalAnglePreset { toolGroupIds := ["dental"] } (by decide) (by decide)

/-- C9: the re-scan issues an update for a measurement exactly when it
lacks dental metadata and its display label matches one of the known
preset label substrings; measurements already carrying dental metadata get
no update call at all. -/
theorem rescan_updates_only_untagged (m : DentalMeasurement) (now : ℕ) :
    (enhanceMeasurement m now).isSome =
      (!measurementHasDentalMetadata m
        && (matchPresetForLabel ((jsPresence m.label).getD "")).isSome) := by
  unfold enhanceMeasurement
  by_cases h : measurementHasDentalMetadata m
  · simp [h]
  · simp only [Bool.not_eq_true] at h
    simp only [h, Bool.false_eq_true, if_false, Bool.not_false, Bool.true_and]
    cases hm : matchPresetForLabel ((jsPresence m.label).getD "") <;> simp [hm]

/-- C10: the cleared-handler whose captured id is still the module's
`lastInitializationId` (the one installed by the most recent
initialization, which records its fresh id) nulls the active preset id and
changes nothing else; a handler from a superseded initialization does
nothing. -/
theorem measurements_cleared_scoped_reset (s : DentalState) (hid : String) :
    (s.lastInitializationId = some hid →
      (handleMeasurementsCleared s hid).activePresetId = none ∧
      (handleMeasurementsCleared s hid).activeTooth = s.activeTooth ∧
      (handleMeasurementsCleared s hid).integration = s.integration ∧
      (handleMeasurementsCleared s hid).subscriptions = s.subscriptions ∧
      (handleMeasurementsCleared s hid).lastInitializationId =
        s.lastInitializationId) ∧
    (s.lastInitializationId ≠ some hid →
      handleMeasurementsCleared s hid = s) ∧
    (∀ tg newId,
      (initializeDentalMeasurements s true true tg newId).lastInitializationId =
        some newId) := by
  refine ⟨?_, ?_, fun tg newId => rfl⟩
  · intro hlast
    unfold handleMeasurementsCleared
    rw [if_pos (by simp [hlast])]
    exact ⟨rfl, rfl, rfl, rfl, rfl⟩
  · intro hlast
    unfold handleMeasurementsCleared
    rw [if_neg (by simp [hlast])]

/-- Witness for C10: under a freshly initialized state, the matching
handler resets the preset while the tooth survives, and a stale handler id
is inert. -/
theorem measurements_cleared_scoped_reset_witness :
    (handleMeasurementsCleared paLengthFdi11State "init1").activePresetId =
        none ∧
      (handleMeasurementsCleared paLengthFdi11State "init1").activeTooth =
        paLengthFdi11State.activeTooth ∧
      handleMeasurementsCleared paLengthFdi11State "init0" =
        paLengthFdi11State := by
  have h := measurements_cleared_scoped_reset paLengthFdi11State "init1"
  have h0 := measurements_cleared_scoped_reset paLengthFdi11State "init0"
  exact ⟨(h.1 (by decide)).1, (h.1 (by decide)).2.1, h0.2.1 (by decide)⟩

/-- C8: the JSON export of the claim's measurement is exactly the expected
entry, and every exported entry keeps the `{uid, label, value, unit,
tooth, source}` shape with the dental metadata fields preferred and the
measurement's own label as fallback (absent values exported as null). -/
theorem export_entry_shape :
    handleExport [exportClaimMeasurement] =
      [{ uid := "m-1", label := some "PA length", value := some fifteenPointFive,
         unit := some "mm", tooth := some { system := "FDI", value := "11" },
         source := some "periapical-length" }] ∧
    (∀ m : DentalMeasurement,
      (exportEntry m).uid = m.uid ∧
      (exportEntry m).value = m.metadata.dentalValue ∧
      (exportEntry m).unit = m.metadata.dentalUnit ∧
      (exportEntry m).tooth = m.metadata.dentalTooth ∧
      (exportEntry m).source = m.metadata.dentalPresetId) ∧
    (∀ (m : DentalMeasurement) (lbl : String),
      m.metadata.dentalPresetLabel = some lbl → lbl ≠ "" →
      (exportEntry m).label = some lbl) ∧
    (∀ m : DentalMeasurement,
      jsPresence m.metadata.dentalPresetLabel = none →
      (exportEntry m).label = m.label) := by
  refine ⟨by decide, fun m => ⟨rfl, rfl, rfl, rfl, rfl⟩, ?_, ?_⟩
  · intro m lbl hl hne
    unfold exportEntry jsPresence
    dsimp only
    rw [hl]
    dsimp only
    rw [if_neg hne]
  · intro m hl
    unfold exportEntry
    dsimp only
    rw [hl]

/-- Witness for C8: the preferred-label clause evaluated on the claim's
concrete measurement. -/
theorem export_entry_shape_witness :
    (exportEntry exportClaimMeasurement).label = some "PA length" :=
  export_entry_shape.2.2.1 exportClaimMeasurement "PA length" rfl (by decide)

/-- The fraction constant used for the export claim is the decimal 15.5. -/
theorem fifteenPointFive_eq : fifteenPointFive = 15.5 := by
  have h := Rat.num_div_den fifteenPointFive
  have hn : fifteenPointFive.num = 31 := rfl
  have hd : fifteenPointFive.den = 2 := rfl
  rw [hn, hd] at h
  rw [← h]
  norm_num

/-- With no duplicate user ids in the share list, `find?` locates exactly
the member entry for the user. -/
theorem find_share_by_user_unique (l : List ShareEntry) (u : String)
    (hnd : (l.map ShareEntry.userId).Nodup) (e : ShareEntry) (he : e ∈ l)
    (heu : e.userId = u) :
    l.find? (fun x => x.userId == u) = some e := by
  induction l with
  | nil => cases he
  | cons x xs ih =>
      rw [List.map_cons, List.nodup_cons] at hnd
      rcases List.mem_cons.mp he with rfl | hmem
      · rw [List.find?_cons_of_pos _ (by simp [heu])]
      · have hxu : x.userId ≠ u := by
          intro hx
          apply hnd.1
          rw [hx]
          exact List.mem_map.mpr ⟨e, hmem, heu⟩
        rw [List.find?_cons_of_neg _ (by simp [hxu])]
        exact ih hnd.2 hmem

/-- In a non-private annotation, a non-owner's read access is exactly
membership of some share entry for the user. -/
theorem canAccess_read_iff (a : Annot) (u : String) (hne : a.userId ≠ u)
    (hpriv : a.isPrivate = false) :
    canAccess a u SharePermission.read = true ↔
      ∃ e ∈ a.sharedWith, e.userId = u := by
  unfold canAccess
  rw [if_neg (by simp [hne]), hpriv]
  simp only [Bool.false_eq_true, if_false]
  cases hf : a.sharedWith.find? (fun e => e.userId == u) with
  | none =>
      simp only [Bool.false_eq_true, false_iff]
      rintro ⟨e, he, heu⟩
      have := List.find?_eq_none.mp hf e he
      simp [heu] at this
  | some e =>
      constructor
      · intro _
        exact ⟨e, List.mem_of_find?_eq_some hf,
          by simpa using List.find?_some hf⟩
      · intro _
        simp

/-- In a non-private annotation with no duplicate share entries, a
non-owner's write access is exactly holding a write grant. -/
theorem canAccess_write_iff (a : Annot) (u : String) (hne : a.userId ≠ u)
    (hpriv : a.isPrivate = false)
    (hnd : (a.sharedWith.map ShareEntry.userId).Nodup) :
    canAccess a u SharePermission.write = true ↔
      ∃ e ∈ a.sharedWith, e.userId = u ∧
        e.permission = SharePermission.write := by
  unfold canAccess
  rw [if_neg (by simp [hne]), hpriv]
  simp only [Bool.false_eq_true, if_false]
  cases hf : a.sharedWith.find? (fun e => e.userId == u) with
  | none =>
      simp only [Bool.false_eq_true, false_iff]
      rintro ⟨e, he, heu, _⟩
      have := List.find?_eq_none.mp hf e he
      simp [heu] at this
  | some e =>
      constructor
      · intro hw
        refine ⟨e, List.mem_of_find?_eq_some hf, ?_, ?_⟩
        · simpa using List.find?_some hf
        · simpa using hw
      · rintro ⟨e', he', heu', hw'⟩
        have huniq : a.sharedWith.find? (fun x => x.userId == u) = some e' :=
          find_share_by_user_unique a.sharedWith u hnd e' he' heu'
        rw [hf] at huniq
        cases Option.some.inj huniq
        simp [hw']

/-- Looking an annotation up by its own id in a singleton store finds it. -/
theorem find_singleton_annot (a : Annot) :
    [a].find? (fun x => x.id == a.id) = some a := by
  rw [List.find?_cons_of_pos _ (by simp)]

/-- C3: the owner always passes both routes; a private annotation answers
403 to every other user regardless of grants; a non-private one answers
GET with 200 exactly for users holding any grant and (with the share list
free of duplicate users, as the share route's upsert maintains) PUT with
200 exactly for users holding a write grant. -/
theorem annot_access_control (a : Annot) (u : String) :
    getAnnotStatus [a] a.id a.userId = 200 ∧
    putAnnotStatus true [a] a.id a.userId = 200 ∧
    (u ≠ a.userId →
      (a.isPrivate = true →
        getAnnotStatus [a] a.id u = 403 ∧
        putAnnotStatus true [a] a.id u = 403) ∧
      (a.isPrivate = false →
        (getAnnotStatus [a] a.id u = 200 ↔
          ∃ e ∈ a.sharedWith, e.userId = u) ∧
        ((a.sharedWith.map ShareEntry.userId).Nodup →
          (putAnnotStatus true [a] a.id u = 200 ↔
            ∃ e ∈ a.sharedWith, e.userId = u ∧
              e.permission = SharePermission.write)))) := by
  have hown : ∀ perm, canAccess a a.userId perm = true := by
    intro perm
    unfold canAccess
    rw [if_pos (by simp)]
  have hdeny : ∀ perm, a.userId ≠ u → a.isPrivate = true →
      canAccess a u perm = false := by
    intro perm hne hpriv
    unfold canAccess
    rw [if_neg (by simp [hne]), hpriv]
    simp
  refine ⟨?_, ?_, ?_⟩
  · unfold getAnnotStatus
    rw [find_singleton_annot]
    simp [hown SharePermission.read]
  · unfold putAnnotStatus
    rw [find_singleton_annot]
    simp [hown SharePermission.write]
  · intro hneu
    have hne : a.userId ≠ u := fun h => hneu h.symm
    constructor
    · intro hpriv
      constructor
      · unfold getAnnotStatus
        rw [find_singleton_annot]
        simp [hdeny SharePermission.read hne hpriv]
      · unfold putAnnotStatus
        rw [find_singleton_annot]
        simp [hdeny SharePermission.write hne hpriv]
    · intro hpriv
      constructor
      · unfold getAnnotStatus
        rw [find_singleton_annot]
        dsimp only
        rw [← canAccess_read_iff a u hne hpriv]
        cases h : canAccess a u SharePermission.read <;> simp [h]
      · intro hnd
        unfold putAnnotStatus
        rw [find_singleton_annot]
        dsimp only
        rw [← canAccess_write_iff a u hne hpriv hnd]
        cases h : canAccess a u SharePermission.write <;> simp [h]

/-- Witness for C3 on a concrete annotation: "bob" holds a read grant, so
GET answers 200 and PUT answers 403. -/
theorem annot_access_control_witness :
    getAnnotStatus [sampleAnnot] sampleAnnot.id "bob" = 200 ∧
    putAnnotStatus true [sampleAnnot] sampleAnnot.id "bob" ≠ 200 := by
  have h := (annot_access_control sampleAnnot "bob").2.2 (by decide)
  have hget := (h.2 (by decide)).1.mpr
    ⟨{ userId := "bob", permission := SharePermission.read }, by decide, rfl⟩
  refine ⟨hget, ?_⟩
  intro hput
  rcases ((h.2 (by decide)).2 (by decide)).mp hput with ⟨e, he, heu, hw⟩
  have he' : e = { userId := "bob", permission := SharePermission.read } := by
    simpa [sampleAnnot] using he
  rw [he'] at hw
  exact absurd hw (by decide)

/-- C4: the save route's upsert updates the found (user, study, session)
document in place — same `_id`, same collection ids, `version` bumped by
one — and creates a fresh `version = 1` document for an unseen session;
eleven saves for one (user, study) across distinct sessions leave exactly
the ten most recently updated documents. -/
theorem viewer_state_save_upsert_and_retention :
    (∀ (db : List VSDoc) (u study session st : String) (a : Bool)
        (now fid : ℕ) (d : VSDoc),
      db.find? (vsKeyMatches u study session) = some d →
        (upsertViewerState db u study session st a now fid).2.version =
          d.version + 1 ∧
        (upsertViewerState db u study session st a now fid).2.id = d.id ∧
        (upsertViewerState db u study session st a now fid).1.map VSDoc.id =
          db.map VSDoc.id) ∧
    (∀ (db : List VSDoc) (u study session st : String) (a : Bool)
        (now fid : ℕ),
      db.find? (vsKeyMatches u study session) = none →
        (upsertViewerState db u study session st a now fid).1 =
          db ++ [(upsertViewerState db u study session st a now fid).2] ∧
        (upsertViewerState db u study session st a now fid).2.version = 1) ∧
    (elevenSaveResult.map VSDoc.sessionId =
      ["a02", "a03", "a04", "a05", "a06", "a07", "a08", "a09", "a10",
       "a11"] ∧
     elevenSaveResult.length = 10) := by
  refine ⟨?_, ?_, by decide, by decide⟩
  · intro db u study session st a now fid d hfound
    unfold upsertViewerState
    rw [hfound]
    refine ⟨rfl, rfl, ?_⟩
    dsimp only
    rw [List.map_map]
    apply List.map_congr_left
    intro x hx
    dsimp only [Function.comp]
    split
    next hxd =>
      have hxid : x.id = d.id := by simpa using hxd
      rw [hxid]
    next => rfl
  · intro db u study session st a now fid hnone
    unfold upsertViewerState
    rw [hnone]
    exact ⟨rfl, rfl⟩

/-- Witness for C4: re-saving the stored sample document's key bumps its
version from 1 to 2. -/
theorem viewer_state_save_upsert_witness :
    (upsertViewerState [sampleVSDoc] "u" "s" "sess" "st2" false 7 9).2.version
      = 2 :=
  (viewer_state_save_upsert_and_retention.1 [sampleVSDoc] "u" "s" "sess"
    "st2" false 7 9 sampleVSDoc (by decide)).1

/-- C7: auto-save answers 400 exactly when a required body field is
missing (JS-falsy); otherwise it answers 200 — on a database failure with
the soft `{success: false}` body and an untouched collection, and on
success having performed the same (user, study, session)-keyed upsert as
the save route with `autoSaved` forced on. -/
theorem auto_save_soft_failure (db : List VSDoc) (u : String)
    (study session st : Option String) (dbFails : Bool) (now fid : ℕ) :
    (autoSaveStatus
        (autoSaveViewerState db u study session st dbFails now fid).2 = 400 ∨
     autoSaveStatus
        (autoSaveViewerState db u study session st dbFails now fid).2 = 200) ∧
    (autoSaveStatus
        (autoSaveViewerState db u study session st dbFails now fid).2 = 400 ↔
      (jsPresence study = none ∨ jsPresence session = none ∨
        jsPresence st = none)) ∧
    (∀ sd se s, jsPresence study = some sd → jsPresence session = some se →
      jsPresence st = some s → dbFails = true →
      autoSaveViewerState db u study session st dbFails now fid =
        (db, AutoSaveResp.softFail)) ∧
    (∀ sd se s, jsPresence study = some sd → jsPresence session = some se →
      jsPresence st = some s → dbFails = false →
      (autoSaveViewerState db u study session st dbFails now fid).1 =
        (upsertViewerState db u sd se s true now fid).1 ∧
      (autoSaveViewerState db u study session st dbFails now fid).2 =
        AutoSaveResp.ok (upsertViewerState db u sd se s true now fid).2.id
          (upsertViewerState db u sd se s true now fid).2.version) := by
  unfold autoSaveViewerState
  cases hsd : jsPresence study with
  | none =>
      refine ⟨Or.inl rfl, by simp [autoSaveStatus], ?_, ?_⟩
      · intro sd se s h1 _ _ _
        cases h1
      · intro sd se s h1 _ _ _
        cases h1
  | some sd0 =>
      cases hse : jsPresence session with
      | none =>
          refine ⟨Or.inl rfl, by simp [autoSaveStatus], ?_, ?_⟩
          · intro sd se s _ h2 _ _
            cases h2
          · intro sd se s _ h2 _ _
            cases h2
      | some se0 =>
          cases hst : jsPresence st with
          | none =>
              refine ⟨Or.inl rfl, by simp [autoSaveStatus], ?_, ?_⟩
              · intro sd se s _ _ h3 _
                cases h3
              · intro sd se s _ _ h3 _
                cases h3
          | some s0 =>
              cases dbFails with
              | true =>
                  refine ⟨Or.inr rfl, by simp [autoSaveStatus], ?_, ?_⟩
                  · intro sd se s h1 h2 h3 _
                    cases Option.some.inj h1
                    cases Option.some.inj h2
                    cases Option.some.inj h3
                    rfl
                  · intro sd se s _ _ _ hf
                    cases hf
              | false =>
                  refine ⟨Or.inr rfl, by simp [autoSaveStatus], ?_, ?_⟩
                  · intro sd se s _ _ _ ht
                    cases ht
                  · intro sd se s h1 h2 h3 _
                    cases Option.some.inj h1
                    cases Option.some.inj h2
                    cases Option.some.inj h3
                    exact ⟨rfl, rfl⟩

/-- Witness for C7: a failing auto-save with all fields present leaves the
store untouched and reports the soft failure. -/
theorem auto_save_soft_failure_witness :
    autoSaveViewerState [] "u" (some "s1") (some "se1") (some "x") true 3 4 =
      ([], AutoSaveResp.softFail) :=
  (auto_save_soft_failure [] "u" (some "s1") (some "se1") (some "x") true 3
      4).2.2.1 "s1" "se1" "x" (by decide) (by decide) (by decide) rfl
